import Mathlib

/-!
Verification of the natural-language specification of `app.py`, the
automated homework grader, against a shallow embedding of its code.

Strings are modelled as `List Char`; directory listings as explicit
lists of entries; the interactive console as a list of input strings
consumed in order; the report file as an optional list of rows (`none`
meaning the file does not exist yet).
-/

namespace AutoGrader

abbrev Str := List Char

/-- Python `str.endswith(suf)`: the last `suf.length` characters equal `suf`. -/
def endsWithStr (suf l : Str) : Bool :=
  l.reverse.take suf.length == suf.reverse

/-- Python `str.startswith(p)`: the first `p.length` characters equal `p`. -/
def startsWithStr (p l : Str) : Bool :=
  l.take p.length == p

/-- Python `sub in s`: `sub` occurs as a contiguous substring of `s`. -/
def containsSub (needle : Str) : Str → Bool
  | [] => needle.isEmpty
  | c :: rest => startsWithStr needle (c :: rest) || containsSub needle rest

/-- The whitespace characters removed by Python `str.strip()`. -/
def pyIsSpace (c : Char) : Bool :=
  c = ' ' || c = '\t' || c = '\n' || c = '\r' || c = '\x0b' || c = '\x0c'

/-- Python `str.strip()`: drop whitespace from both ends. -/
def pyStrip (l : Str) : Str :=
  ((l.dropWhile pyIsSpace).reverse.dropWhile pyIsSpace).reverse

/-- Python `str.lower()` (ASCII case). -/
def lowerStr (l : Str) : Str :=
  l.map Char.toLower

/-- The name skipped by `determine_submission_type` (a leftover of a
previous extraction). -/
def extractedName : Str := "extracted".toList

/-- The `.txt` extension. -/
def txtExt : Str := ".txt".toList

/-- The `.zip` extension. -/
def zipExt : Str := ".zip".toList

/-- The `.rar` extension. -/
def rarExt : Str := ".rar".toList

/-- The `.7z` extension. -/
def sevenZExt : Str := ".7z".toList

/-- The `.java` extension. -/
def javaExt : Str := ".java".toList

/-- The `'package '` keyword head checked by the stripper. -/
def packageKw : Str := "package ".toList

/-- The `'import '` keyword head checked by the stripper. -/
def importKw : Str := "import ".toList

/-- The statement terminator checked by the stripper. -/
def semicolonStr : Str := ";".toList

/-- The system-metadata directory pattern ignored during tree walks. -/
def macosxName : Str := "_MACOSX".toList

/-- The first reserved restart token of `collect_grades`. -/
def sentinelB : Str := "b".toList

/-- The second reserved restart token of `collect_grades`. -/
def sentinelZero : Str := "0".toList

/-- The identifier recorded when no matriculation number is found. -/
def notFoundStr : Str := "Not found".toList

/-- `extract_student_name` (app.py:295): `folder_name.split('_')[0]`,
the characters before the first underscore. -/
def extract_student_name (folder_name : Str) : Str :=
  folder_name.takeWhile (fun c => c != '_')

/-- `re` helper: the first 8 characters of `l`, provided there are at
least 8 and all of them are decimal digits (`\d{8}` anchored here). -/
def takeDigits8 (l : Str) : Option Str :=
  if (l.take 8).length = 8 ∧ (l.take 8).all Char.isDigit then some (l.take 8) else none

/-- `re.search(r'_(\d{8})', item)`: leftmost underscore followed by 8
digits; returns the captured digit run. -/
def searchUnderscore8 : Str → Option Str
  | [] => none
  | c :: rest =>
    if c = '_' then
      match takeDigits8 rest with
      | some d => some d
      | none => searchUnderscore8 rest
    else searchUnderscore8 rest

/-- `re.search(r'\d{8}', item)`: leftmost run of 8 consecutive digits. -/
def search8 : Str → Option Str
  | [] => none
  | c :: rest =>
    match takeDigits8 (c :: rest) with
    | some d => some d
    | none => search8 rest

/-- `find_matriculation_number` (app.py:313): scan all entry names of the
folder for `_(\d{8})`; if no entry matches, scan again for a bare `\d{8}`;
otherwise `None`. -/
def find_matriculation_number (entry_names : List Str) : Option Str :=
  match entry_names.findSome? searchUnderscore8 with
  | some d => some d
  | none => entry_names.findSome? search8

/-- A member of an extracted zip archive: its directory components inside
the archive and its file name. -/
structure ZipMember where
  dirPath : List Str
  fileName : Str
deriving DecidableEq, Repr

/-- A top-level entry of a submission folder: its name, whether it is a
directory, and (when the entry is a zip archive) the members extraction
would produce. -/
structure FsEntry where
  name : Str
  isDir : Bool
  zipContents : List ZipMember
deriving DecidableEq, Repr

/-- The submission shapes returned by `determine_submission_type`:
"Zipped file", "Text file", "Folder", "Unknown/Other file". -/
inductive SubType where
  | zipped
  | text
  | folder
  | unknown
deriving DecidableEq, Repr

/-- `item.endswith(('.zip', '.rar', '.7z'))`. -/
def isArchiveName (n : Str) : Bool :=
  endsWithStr zipExt n || endsWithStr rarExt n || endsWithStr sevenZExt n

/-- `determine_submission_type` (app.py:347): scan the top-level entries
in listing order; skip an entry named `extracted`; on each remaining
entry return "Zipped file" if its name has an archive extension, else
"Text file" if it ends in `.txt`, else "Folder" if it is a directory,
else move on; "Unknown/Other file" if no entry returned. -/
def determine_submission_type : List FsEntry → SubType
  | [] => SubType.unknown
  | e :: rest =>
    if e.name = extractedName then determine_submission_type rest
    else if isArchiveName e.name then SubType.zipped
    else if endsWithStr txtExt e.name then SubType.text
    else if e.isDir then SubType.folder
    else determine_submission_type rest

/-- Claim C1's reading of the classifier: priority Archive > PlainText >
DirectoryTree decided over the WHOLE entry set (minus `extracted`),
independent of listing order. Stated from the spec's words, for
comparison with `determine_submission_type`. -/
def claimed_submission_type (entries : List FsEntry) : SubType :=
  let es := entries.filter (fun e => !(e.name == extractedName))
  if es.any (fun e => isArchiveName e.name) then SubType.zipped
  else if es.any (fun e => endsWithStr txtExt e.name) then SubType.text
  else if es.any (fun e => e.isDir) then SubType.folder
  else SubType.unknown

/-- First-match characterization of the classifier: the first entry (in
listing order, `extracted` removed) matching any of the three rules
decides the shape, with the rule priority applied to that entry alone. -/
def firstMatchType (entries : List FsEntry) : SubType :=
  match (entries.filter (fun e => !(e.name == extractedName))).find?
      (fun e => isArchiveName e.name || endsWithStr txtExt e.name || e.isDir) with
  | none => SubType.unknown
  | some e =>
    if isArchiveName e.name then SubType.zipped
    else if endsWithStr txtExt e.name then SubType.text
    else SubType.folder

/-- One child of the homework root: its folder name, whether it is a
directory, and its own top-level entries. -/
structure RootEntry where
  name : Str
  isDir : Bool
  entries : List FsEntry
deriving DecidableEq, Repr

/-- The descriptor built by `search_student_directory` (app.py:388). -/
structure StudentInfo where
  name : Str
  matriculation : Str
  submission_type : SubType
  folderName : Str
deriving DecidableEq, Repr

/-- `search_student_directory` (app.py:388): derive name, matriculation
(`'Not found'` when the search yields nothing) and shape. -/
def search_student_directory (r : RootEntry) : StudentInfo :=
  { name := extract_student_name r.name
    matriculation := (find_matriculation_number (r.entries.map FsEntry.name)).getD notFoundStr
    submission_type := determine_submission_type r.entries
    folderName := r.name }

/-- `scan_submissions` (app.py:1025): iterate the homework root's
children in listing order; skip a child whose lowercased name equals the
configured done-directory name; append a descriptor for each remaining
child that is a directory. -/
def scan_submissions (doneDir : Str) (roots : List RootEntry) : List StudentInfo :=
  roots.foldl (fun acc r =>
    if lowerStr r.name == doneDir then acc
    else if r.isDir then acc ++ [search_student_directory r]
    else acc) []

/-- `remove_package_declarations` line predicate (app.py:706-720): the
line's stripped content starts with `package ` (keyword and blank) and
ends with `;`, or likewise for `import `. -/
def removeLine (line : Str) : Bool :=
  let s := pyStrip line
  (startsWithStr packageKw s && endsWithStr semicolonStr s)
  || (startsWithStr importKw s && endsWithStr semicolonStr s)

/-- The new line list the stripper builds for one file: every line whose
stripped content is a package/import declaration is dropped, all other
lines are kept unchanged (each line carries its original line ending). -/
def stripLines (lines : List Str) : List Str :=
  lines.filter (fun l => !(removeLine l))

/-- The `modified` flag of `remove_package_declarations`: set when at
least one line was removed. -/
def fileModified (lines : List Str) : Bool :=
  lines.any removeLine

/-- A file in the staging directory: its name and its lines (as read by
`readlines`, line endings included). -/
structure JavaFile where
  name : Str
  lines : List Str
deriving DecidableEq, Repr

/-- `f.endswith('.java')`. -/
def isJavaName (n : Str) : Bool :=
  endsWithStr javaExt n

/-- `remove_package_declarations` (app.py:672): for each `.java` file of
the directory, drop its package/import lines; rewrite the file only when
at least one line was removed; return the new directory contents and the
number of files modified. -/
def remove_package_declarations : List JavaFile → List JavaFile × Nat
  | [] => ([], 0)
  | f :: rest =>
    if isJavaName f.name && fileModified f.lines then
      ({ name := f.name, lines := stripLines f.lines } :: (remove_package_declarations rest).1,
        (remove_package_declarations rest).2 + 1)
    else (f :: (remove_package_declarations rest).1, (remove_package_declarations rest).2)

/-- `'_MACOSX' in root`: some directory component of the walk path
contains `_MACOSX` (app.py:770). -/
def hasMacosx (dirPath : List Str) : Bool :=
  dirPath.any (fun comp => containsSub macosxName comp)

/-- The walk over the extracted tree (app.py:768-789): every `.java`
file not under a `_MACOSX` path is copied (by name) into the staging
directory. -/
def walkJavaFiles (members : List ZipMember) : List Str :=
  (members.filter (fun m =>
    !(hasMacosx m.dirPath) && isJavaName m.fileName)).map ZipMember.fileName

/-- `extract_and_copy_java_files` (app.py:736): scan the submission's
top-level entries in order; on the first entry with an archive
extension, extract it when it ends in `.zip` (for `.rar`/`.7z` nothing
is extracted, so the walk of the nonexistent extraction directory finds
nothing), copy the reachable `.java` files into staging and return the
extraction path (modelled as the Boolean `true`); with no archive entry
copy nothing and return no path. -/
def extract_and_copy_java_files : List FsEntry → List Str × Bool
  | [] => ([], false)
  | e :: rest =>
    if isArchiveName e.name then
      ((if endsWithStr zipExt e.name then walkJavaFiles e.zipContents else []), true)
    else extract_and_copy_java_files rest

/-- The guard at app.py:989: JUnit testing runs only when the staging
directory is non-empty. -/
def testing_invoked (staged : List Str) : Bool :=
  !staged.isEmpty

/-- Python `int(...)` on an all-digit string: its decimal value. -/
def decimalValue (l : Str) : Nat :=
  l.foldl (fun acc c => acc * 10 + (c.toNat - '0'.toNat)) 0

/-- The grade check at app.py:832: `t.isdigit() and 0 <= int(t) <= 2`. -/
def validGrade (l : Str) : Bool :=
  !l.isEmpty && l.all Char.isDigit && decide (decimalValue l ≤ 2)

/-- One inner `while` of `collect_grades`: consume console inputs until
one (after `strip()`) is a valid grade; `none` when the input sequence
is exhausted first. -/
def readGrade : List Str → Option (Str × List Str)
  | [] => none
  | i :: rest =>
    if validGrade (pyStrip i) then some (pyStrip i, rest) else readGrade rest

/-- The scores and comment returned by `collect_grades`. -/
abbrev Grades := Str × Str × Str × Str

/-- The outer `while comment == "b" or comment == "0"` loop of
`collect_grades` (app.py:831-846), with explicit fuel: read three valid
grades and a comment; a sentinel comment (`b` or `0`) discards the three
grades and restarts; `none` when the inputs run out (the real loop would
still be waiting at a prompt). -/
def collectLoop : Nat → List Str → Option (Grades × List Str)
  | 0, _ => none
  | fuel + 1, inputs =>
    match readGrade inputs with
    | none => none
    | some (g1, r1) =>
      match readGrade r1 with
      | none => none
      | some (g2, r2) =>
        match readGrade r2 with
        | none => none
        | some (g3, r3) =>
          match r3 with
          | [] => none
          | c :: rest =>
            if pyStrip c = sentinelB || pyStrip c = sentinelZero then collectLoop fuel rest
            else some ((g1, g2, g3, pyStrip c), rest)

/-- `collect_grades` (app.py:811) over a finite console-input sequence:
each loop iteration consumes at least four inputs, so `length + 1` fuel
is always enough; `some` exactly when the capture terminates within the
given inputs. -/
def collect_grades (inputs : List Str) : Option (Grades × List Str) :=
  collectLoop (inputs.length + 1) inputs

/-- A row of the report file. -/
abbrev Row := List Str

/-- The fixed six-column header of the report (app.py:872). -/
def csvHeaders : Row :=
  ["Student Name".toList, "Matriculation Nr".toList, "Task 1".toList,
   "Task 2".toList, "Task 3".toList, "Comment".toList]

/-- The data row written for one graded submission (app.py:875-882). -/
def gradeRow (info : StudentInfo) (g : Grades) : Row :=
  [info.name, info.matriculation, g.1, g.2.1, g.2.2.1, g.2.2.2]

/-- `save_grades_to_csv` (app.py:851): the report state is `none` when
the file does not exist; opening in append mode keeps the existing rows;
the header row is written first exactly when the file did not exist; the
data row is then appended. -/
def save_grades_to_csv (csv : Option (List Row)) (info : StudentInfo) (g : Grades) : List Row :=
  (csv.getD []) ++ (if csv.isSome then [] else [csvHeaders]) ++ [gradeRow info g]

/-- Steps 4-5 of `process_student_submission` (app.py:996-999): capture
grades from the console, then append the row to the report; both run
unconditionally for every submission descriptor. -/
def process_submission_record (info : StudentInfo) (inputs : List Str)
    (csv : Option (List Row)) : Option (List Row) :=
  (collect_grades inputs).map (fun g => save_grades_to_csv csv info g.1)

/-- Claim C8's hypothesis, from the claim's words: the name contains a
run of 8 consecutive decimal digits at some position. -/
def hasRun8 (l : Str) : Bool :=
  l.tails.any (fun t => takeDigits8 t ≠ none)

/-! ## Theorems -/

theorem firstMatchType_cons_skip (e : FsEntry) (rest : List FsEntry)
    (h : e.name = extractedName) :
    firstMatchType (e :: rest) = firstMatchType rest := by
  unfold firstMatchType
  rw [List.filter_cons]
  simp [h]

theorem firstMatchType_cons_found (e : FsEntry) (rest : List FsEntry)
    (h : ¬ e.name = extractedName)
    (hq : (isArchiveName e.name || endsWithStr txtExt e.name || e.isDir) = true) :
    firstMatchType (e :: rest)
      = (if isArchiveName e.name then SubType.zipped
         else if endsWithStr txtExt e.name then SubType.text
         else SubType.folder) := by
  unfold firstMatchType
  rw [List.filter_cons]
  have hb : (!(e.name == extractedName)) = true := by
    simp [h]
  rw [if_pos hb,
    @List.find?_cons_of_pos FsEntry
      (fun e => isArchiveName e.name || endsWithStr txtExt e.name || e.isDir) e
      (List.filter (fun e => !(e.name == extractedName)) rest) hq]

theorem firstMatchType_cons_nomatch (e : FsEntry) (rest : List FsEntry)
    (h : ¬ e.name = extractedName)
    (hq : (isArchiveName e.name || endsWithStr txtExt e.name || e.isDir) = false) :
    firstMatchType (e :: rest) = firstMatchType rest := by
  unfold firstMatchType
  rw [List.filter_cons]
  have hb : (!(e.name == extractedName)) = true := by
    simp [h]
  rw [if_pos hb,
    @List.find?_cons_of_neg FsEntry
      (fun e => isArchiveName e.name || endsWithStr txtExt e.name || e.isDir) e
      (List.filter (fun e => !(e.name == extractedName)) rest) (by simp [hq])]

/-- Claim C1, amended: shape classification is a first-match scan in
directory-listing order — skipping entries named `extracted`, the result
is decided by the first entry matching any rule, with the priority
Archive > PlainText > DirectoryTree applied to that entry alone, and
Unrecognized when no entry matches.  The whole-set priority the claim
states does not hold (see the counterexample). -/
theorem determine_submission_type_eq_firstMatchType (entries : List FsEntry) :
    determine_submission_type entries = firstMatchType entries := by
  induction entries with
  | nil => rfl
  | cons e rest ih =>
    by_cases hx : e.name = extractedName
    · rw [firstMatchType_cons_skip e rest hx, ← ih]
      show (if e.name = extractedName then determine_submission_type rest
        else if isArchiveName e.name then SubType.zipped
        else if endsWithStr txtExt e.name then SubType.text
        else if e.isDir then SubType.folder
        else determine_submission_type rest) = determine_submission_type rest
      rw [if_pos hx]
    · by_cases hq : (isArchiveName e.name || endsWithStr txtExt e.name || e.isDir) = true
      · rw [firstMatchType_cons_found e rest hx hq]
        show (if e.name = extractedName then determine_submission_type rest
          else if isArchiveName e.name then SubType.zipped
          else if endsWithStr txtExt e.name then SubType.text
          else if e.isDir then SubType.folder
          else determine_submission_type rest) = _
        rw [if_neg hx]
        by_cases ha : isArchiveName e.name = true
        · simp only [ha, if_true]
        · by_cases ht : endsWithStr txtExt e.name = true
          · simp only [ha, ht, if_true, Bool.false_eq_true, if_false]
          · have hd : e.isDir = true := by
              rcases Bool.or_eq_true_iff.mp hq with h1 | h2
              · rcases Bool.or_eq_true_iff.mp h1 with h3 | h4
                · exact absurd h3 ha
                · exact absurd h4 ht
              · exact h2
            have ha' : isArchiveName e.name = false := Bool.eq_false_iff.mpr ha
            have ht' : endsWithStr txtExt e.name = false := Bool.eq_false_iff.mpr ht
            simp only [ha', ht', hd, Bool.false_eq_true, if_false, if_true]
      · have hq' : (isArchiveName e.name || endsWithStr txtExt e.name || e.isDir) = false :=
          Bool.eq_false_iff.mpr hq
        rw [firstMatchType_cons_nomatch e rest hx hq', ← ih]
        show (if e.name = extractedName then determine_submission_type rest
          else if isArchiveName e.name then SubType.zipped
          else if endsWithStr txtExt e.name then SubType.text
          else if e.isDir then SubType.folder
          else determine_submission_type rest) = determine_submission_type rest
        have ha : isArchiveName e.name = false :=
          (Bool.or_eq_false_iff.mp (Bool.or_eq_false_iff.mp hq').1).1
        have ht : endsWithStr txtExt e.name = false :=
          (Bool.or_eq_false_iff.mp (Bool.or_eq_false_iff.mp hq').1).2
        have hd : e.isDir = false := (Bool.or_eq_false_iff.mp hq').2
        rw [if_neg hx]
        simp only [ha, ht, hd, Bool.false_eq_true, if_false]

/-- Claim C1 counterexample: with top-level entries `[a.txt, b.zip]`,
the code classifies the submission as PlainText although an entry with
an archive extension is present, whereas the claimed whole-entry-set
priority yields Archive. -/
theorem determine_submission_type_text_beats_later_zip :
    determine_submission_type
        [⟨"a.txt".toList, false, []⟩, ⟨"b.zip".toList, false, []⟩] = SubType.text
    ∧ claimed_submission_type
        [⟨"a.txt".toList, false, []⟩, ⟨"b.zip".toList, false, []⟩] = SubType.zipped := by
  decide

theorem scan_submissions_foldl_aux (doneDir : Str) (roots : List RootEntry)
    (acc : List StudentInfo) :
    roots.foldl (fun acc r =>
      if lowerStr r.name == doneDir then acc
      else if r.isDir then acc ++ [search_student_directory r]
      else acc) acc
    = acc ++ (roots.filter (fun r => !(lowerStr r.name == doneDir) && r.isDir)).map
        search_student_directory := by
  induction roots generalizing acc with
  | nil => simp
  | cons r rest ih =>
    rw [List.foldl_cons, List.filter_cons]
    by_cases hd : (lowerStr r.name == doneDir) = true
    · rw [if_pos hd, ih]
      have : (!(lowerStr r.name == doneDir) && r.isDir) = false := by simp [hd]
      rw [this]
      simp
    · have hd' : (lowerStr r.name == doneDir) = false := Bool.eq_false_iff.mpr hd
      rw [if_neg hd]
      by_cases hi : r.isDir = true
      · rw [if_pos hi, ih]
        have : (!(lowerStr r.name == doneDir) && r.isDir) = true := by simp [hd', hi]
        rw [this]
        simp
      · have hi' : r.isDir = false := Bool.eq_false_iff.mpr hi
        rw [if_neg hi, ih]
        have : (!(lowerStr r.name == doneDir) && r.isDir) = false := by simp [hi']
        rw [this]
        simp

/-- Claim C7, amended: the scan produces one descriptor per immediate
subdirectory of the homework root, excluding exactly those whose
LOWERCASED name equals the configured archive-directory name verbatim.
Only when the configured name is itself all-lowercase (as the default
`done` is) does this coincide with a case-insensitive comparison; a
capitalised configured name such as `Done` excludes nothing (see the
counterexample). -/
theorem scan_submissions_lowercase_exclusion (doneDir : Str) (roots : List RootEntry) :
    scan_submissions doneDir roots
      = (roots.filter (fun r => !(lowerStr r.name == doneDir) && r.isDir)).map
          search_student_directory
    ∧ (lowerStr doneDir = doneDir →
        ∀ r : RootEntry, (lowerStr r.name == doneDir) = (lowerStr r.name == lowerStr doneDir)) := by
  constructor
  · have h := scan_submissions_foldl_aux doneDir roots []
    simpa [scan_submissions] using h
  · intro h r
    rw [h]

/-- Claim C7 counterexample: with the archive-directory name configured
as `Done`, the subdirectory `done` — equal to it under case-insensitive
comparison — is NOT excluded: the scan still produces a descriptor for
it, because the code lowercases only the folder name and compares the
result to the configured name verbatim. -/
theorem scan_submissions_not_case_insensitive :
    (scan_submissions "Done".toList [⟨"done".toList, true, []⟩]).length = 1
    ∧ lowerStr "done".toList = lowerStr "Done".toList := by
  decide

theorem scan_submissions_lowercase_exclusion_witness :
    (lowerStr "dOnE".toList == "done".toList)
      = (lowerStr "dOnE".toList == lowerStr "done".toList) :=
  (scan_submissions_lowercase_exclusion "done".toList []).2 (by decide)
    ⟨"dOnE".toList, true, []⟩

theorem extract_student_name_append (A rest : Str) (hA : '_' ∉ A) :
    extract_student_name (A ++ '_' :: rest) = A := by
  unfold extract_student_name
  induction A with
  | nil => simp [List.takeWhile]
  | cons c cs ih =>
    have hc : c ≠ '_' := fun h => hA (by rw [h]; exact List.mem_cons_self _ _)
    have hcs : '_' ∉ cs := fun h => hA (List.mem_cons_of_mem _ h)
    rw [List.cons_append, List.takeWhile_cons]
    have hb : (c != '_') = true := by simp [hc]
    rw [hb, if_pos rfl, ih hcs]

theorem takeDigits8_digits_append (post : Str) :
    takeDigits8 ("12345678".toList ++ post) = some "12345678".toList := by
  have h8 : ("12345678".toList ++ post).take 8 = "12345678".toList := by
    rw [show (8 : Nat) = ("12345678".toList).length from rfl, List.take_left]
  unfold takeDigits8
  rw [h8]
  rw [if_pos (by decide)]

theorem searchUnderscore8_after_clean_head (pre post : Str) (hp : '_' ∉ pre) :
    searchUnderscore8 (pre ++ '_' :: ("12345678".toList ++ post))
      = some "12345678".toList := by
  induction pre with
  | nil =>
    rw [List.nil_append]
    unfold searchUnderscore8
    rw [if_pos rfl, takeDigits8_digits_append]
  | cons c cs ih =>
    have hc : c ≠ '_' := fun h => hp (by rw [h]; exact List.mem_cons_self _ _)
    have hcs : '_' ∉ cs := fun h => hp (List.mem_cons_of_mem _ h)
    rw [List.cons_append]
    unfold searchUnderscore8
    rw [if_neg hc]
    exact ih hcs

theorem find_matriculation_number_head (pre post : Str) (others : List Str)
    (hp : '_' ∉ pre) :
    find_matriculation_number ((pre ++ '_' :: ("12345678".toList ++ post)) :: others)
      = some "12345678".toList := by
  unfold find_matriculation_number
  rw [List.findSome?_cons, searchUnderscore8_after_clean_head pre post hp]

/-- Claim C2, amended: for a submission folder named `A B_12345678_rest`
the display name is `A B`, the part before the first underscore of the
FOLDER name; the matriculation identifier, however, is searched in the
names of the entries INSIDE the folder, not in the folder name: when the
folder's first entry name contains `_12345678` (with no earlier
underscore in that entry name), identifier extraction yields `12345678`.
A folder of that name whose entries carry no digit run yields
`Not found` instead (see the counterexample). -/
theorem student_name_and_matriculation_from_entries
    (A rest pre post : Str) (names : List Str) (r : RootEntry)
    (hA : '_' ∉ A) (hp : '_' ∉ pre)
    (hname : r.name = A ++ '_' :: rest)
    (hentries : r.entries.map FsEntry.name
      = (pre ++ '_' :: ("12345678".toList ++ post)) :: names) :
    (search_student_directory r).name = A
    ∧ (search_student_directory r).matriculation = "12345678".toList := by
  unfold search_student_directory
  constructor
  · show extract_student_name r.name = A
    rw [hname]
    exact extract_student_name_append A rest hA
  · show (find_matriculation_number (r.entries.map FsEntry.name)).getD notFoundStr
      = "12345678".toList
    rw [hentries, find_matriculation_number_head pre post names hp]
    rfl

/-- Claim C2 counterexample: a submission folder named
`Jane Doe_12345678_assignsubmission_file` whose single entry is
`solution.zip` gets identifier `Not found`, not `12345678`: the code
searches the entry names inside the folder, never the folder name. -/
theorem matriculation_not_from_folder_name :
    (search_student_directory
        { name := "Jane Doe_12345678_assignsubmission_file".toList
          isDir := true
          entries := [{ name := "solution.zip".toList, isDir := false,
                        zipContents := [] }] }).matriculation = notFoundStr
    ∧ notFoundStr ≠ "12345678".toList := by
  decide

theorem student_name_and_matriculation_witness :
    (search_student_directory
        { name := "Jane Doe_99 whatever".toList
          isDir := true
          entries := [{ name := "hw_12345678.zip".toList, isDir := false,
                        zipContents := [] }] }).name = "Jane Doe".toList
    ∧ (search_student_directory
        { name := "Jane Doe_99 whatever".toList
          isDir := true
          entries := [{ name := "hw_12345678.zip".toList, isDir := false,
                        zipContents := [] }] }).matriculation = "12345678".toList :=
  student_name_and_matriculation_from_entries
    "Jane Doe".toList "99 whatever".toList "hw".toList ".zip".toList [] _
    (by decide) (by decide) rfl rfl

/-- Claim C3: for every directory of files, the stripper removes from
each `.java` file exactly the lines whose stripped content starts with
the `package ` (or `import `) keyword and ends with `;`; every other
line — and every file in which no line matched — is left exactly as it
was, lines keeping their original endings; and the returned count is the
number of `.java` files in which at least one line was removed. -/
theorem remove_package_declarations_characterization (files : List JavaFile) :
    remove_package_declarations files
      = (files.map (fun f =>
            if isJavaName f.name && fileModified f.lines then
              { name := f.name, lines := f.lines.filter (fun l => !(removeLine l)) }
            else f),
         (files.filter (fun f => isJavaName f.name && fileModified f.lines)).length) := by
  induction files with
  | nil => rfl
  | cons f rest ih =>
    by_cases h : (isJavaName f.name && fileModified f.lines) = true
    · show (if isJavaName f.name && fileModified f.lines then
          ({ name := f.name, lines := stripLines f.lines } :: (remove_package_declarations rest).1,
            (remove_package_declarations rest).2 + 1)
        else (f :: (remove_package_declarations rest).1, (remove_package_declarations rest).2)) = _
      rw [if_pos h, ih, List.map_cons, List.filter_cons]
      simp [stripLines, h]
    · show (if isJavaName f.name && fileModified f.lines then
          ({ name := f.name, lines := stripLines f.lines } :: (remove_package_declarations rest).1,
            (remove_package_declarations rest).2 + 1)
        else (f :: (remove_package_declarations rest).1, (remove_package_declarations rest).2)) = _
      have h' : (isJavaName f.name && fileModified f.lines) = false := Bool.eq_false_iff.mpr h
      rw [if_neg h, ih, List.map_cons, List.filter_cons, h']
      simp

theorem fileModified_stripLines (lines : List Str) :
    fileModified (stripLines lines) = false := by
  unfold fileModified stripLines
  rw [Bool.eq_false_iff]
  intro h
  rcases List.any_eq_true.mp h with ⟨l, hl, hrl⟩
  rcases List.mem_filter.mp hl with ⟨_, hneg⟩
  rw [hrl] at hneg
  exact absurd hneg (by decide)

/-- Claim C4: the stripper is idempotent — running it again on the
directory a first run produced removes nothing and reports zero modified
files. -/
theorem remove_package_declarations_idempotent (files : List JavaFile) :
    remove_package_declarations (remove_package_declarations files).1
      = ((remove_package_declarations files).1, 0) := by
  induction files with
  | nil => rfl
  | cons f rest ih =>
    by_cases h : (isJavaName f.name && fileModified f.lines) = true
    · have h1 : remove_package_declarations (f :: rest)
          = ({ name := f.name, lines := stripLines f.lines }
              :: (remove_package_declarations rest).1,
             (remove_package_declarations rest).2 + 1) := by
        show (if isJavaName f.name && fileModified f.lines then _ else _) = _
        rw [if_pos h]
      rw [h1]
      have h2 : (isJavaName f.name && fileModified (stripLines f.lines)) = false := by
        rw [fileModified_stripLines]
        simp
      show (if isJavaName ({ name := f.name, lines := stripLines f.lines } : JavaFile).name
            && fileModified ({ name := f.name, lines := stripLines f.lines } : JavaFile).lines
          then _ else _) = _
      rw [if_neg (by simp only [h2]; exact fun hfalse => absurd hfalse (by simp))]
      rw [ih]
    · have h1 : remove_package_declarations (f :: rest)
          = (f :: (remove_package_declarations rest).1,
             (remove_package_declarations rest).2) := by
        show (if isJavaName f.name && fileModified f.lines then _ else _) = _
        rw [if_neg h]
      rw [h1]
      show (if isJavaName f.name && fileModified f.lines then _ else _) = _
      rw [if_neg h, ih]

theorem readGrade_valid : ∀ (inputs : List Str) (g : Str) (r : List Str),
    readGrade inputs = some (g, r) → validGrade g = true := by
  intro inputs
  induction inputs with
  | nil =>
    intro g r h
    exact absurd h (by simp [readGrade])
  | cons i rest ih =>
    intro g r h
    unfold readGrade at h
    by_cases hv : validGrade (pyStrip i) = true
    · rw [if_pos hv] at h
      injection h with h1
      injection h1 with hg hr
      rw [← hg]
      exact hv
    · rw [if_neg hv] at h
      exact ih g r h

theorem readGrade_shrinks : ∀ (inputs : List Str) (g : Str) (r : List Str),
    readGrade inputs = some (g, r) → r.length < inputs.length := by
  intro inputs
  induction inputs with
  | nil =>
    intro g r h
    exact absurd h (by simp [readGrade])
  | cons i rest ih =>
    intro g r h
    unfold readGrade at h
    by_cases hv : validGrade (pyStrip i) = true
    · rw [if_pos hv] at h
      injection h with h1
      injection h1 with hg hr
      rw [← hr]
      exact Nat.lt_succ_self _
    · rw [if_neg hv] at h
      exact Nat.lt_trans (ih g r h) (Nat.lt_succ_self _)

theorem collectLoop_stuck1 (f : Nat) (inputs : List Str)
    (h1 : readGrade inputs = none) : collectLoop (f + 1) inputs = none := by
  show (match readGrade inputs with
    | none => none
    | some (g1, r1) =>
      match readGrade r1 with
      | none => none
      | some (g2, r2) =>
        match readGrade r2 with
        | none => none
        | some (g3, r3) =>
          match r3 with
          | [] => none
          | c :: rest =>
            if pyStrip c = sentinelB || pyStrip c = sentinelZero then collectLoop f rest
            else some ((g1, g2, g3, pyStrip c), rest)) = none
  rw [h1]

theorem collectLoop_stuck2 (f : Nat) (inputs r1 : List Str) (g1 : Str)
    (h1 : readGrade inputs = some (g1, r1)) (h2 : readGrade r1 = none) :
    collectLoop (f + 1) inputs = none := by
  show (match readGrade inputs with
    | none => none
    | some (g1, r1) =>
      match readGrade r1 with
      | none => none
      | some (g2, r2) =>
        match readGrade r2 with
        | none => none
        | some (g3, r3) =>
          match r3 with
          | [] => none
          | c :: rest =>
            if pyStrip c = sentinelB || pyStrip c = sentinelZero then collectLoop f rest
            else some ((g1, g2, g3, pyStrip c), rest)) = none
  rw [h1]
  show (match readGrade r1 with
    | none => none
    | some (g2, r2) =>
      match readGrade r2 with
      | none => none
      | some (g3, r3) =>
        match r3 with
        | [] => none
        | c :: rest =>
          if pyStrip c = sentinelB || pyStrip c = sentinelZero then collectLoop f rest
          else some ((g1, g2, g3, pyStrip c), rest)) = none
  rw [h2]

theorem collectLoop_stuck3 (f : Nat) (inputs r1 r2 : List Str) (g1 g2 : Str)
    (h1 : readGrade inputs = some (g1, r1)) (h2 : readGrade r1 = some (g2, r2))
    (h3 : readGrade r2 = none) :
    collectLoop (f + 1) inputs = none := by
  show (match readGrade inputs with
    | none => none
    | some (g1, r1) =>
      match readGrade r1 with
      | none => none
      | some (g2, r2) =>
        match readGrade r2 with
        | none => none
        | some (g3, r3) =>
          match r3 with
          | [] => none
          | c :: rest =>
            if pyStrip c = sentinelB || pyStrip c = sentinelZero then collectLoop f rest
            else some ((g1, g2, g3, pyStrip c), rest)) = none
  rw [h1]
  show (match readGrade r1 with
    | none => none
    | some (g2, r2) =>
      match readGrade r2 with
      | none => none
      | some (g3, r3) =>
        match r3 with
        | [] => none
        | c :: rest =>
          if pyStrip c = sentinelB || pyStrip c = sentinelZero then collectLoop f rest
          else some ((g1, g2, g3, pyStrip c), rest)) = none
  rw [h2]
  show (match readGrade r2 with
    | none => none
    | some (g3, r3) =>
      match r3 with
      | [] => none
      | c :: rest =>
        if pyStrip c = sentinelB || pyStrip c = sentinelZero then collectLoop f rest
        else some ((g1, g2, g3, pyStrip c), rest)) = none
  rw [h3]

theorem collectLoop_stuck4 (f : Nat) (inputs r1 r2 : List Str) (g1 g2 g3 : Str)
    (h1 : readGrade inputs = some (g1, r1)) (h2 : readGrade r1 = some (g2, r2))
    (h3 : readGrade r2 = some (g3, [])) :
    collectLoop (f + 1) inputs = none := by
  show (match readGrade inputs with
    | none => none
    | some (g1, r1) =>
      match readGrade r1 with
      | none => none
      | some (g2, r2) =>
        match readGrade r2 with
        | none => none
        | some (g3, r3) =>
          match r3 with
          | [] => none
          | c :: rest =>
            if pyStrip c = sentinelB || pyStrip c = sentinelZero then collectLoop f rest
            else some ((g1, g2, g3, pyStrip c), rest)) = none
  rw [h1]
  show (match readGrade r1 with
    | none => none
    | some (g2, r2) =>
      match readGrade r2 with
      | none => none
      | some (g3, r3) =>
        match r3 with
        | [] => none
        | c :: rest =>
          if pyStrip c = sentinelB || pyStrip c = sentinelZero then collectLoop f rest
          else some ((g1, g2, g3, pyStrip c), rest)) = none
  rw [h2]
  show (match readGrade r2 with
    | none => none
    | some (g3, r3) =>
      match r3 with
      | [] => none
      | c :: rest =>
        if pyStrip c = sentinelB || pyStrip c = sentinelZero then collectLoop f rest
        else some ((g1, g2, g3, pyStrip c), rest)) = none
  rw [h3]

theorem collectLoop_succ (f : Nat) (inputs r1 r2 : List Str) (g1 g2 g3 c : Str)
    (rest : List Str)
    (h1 : readGrade inputs = some (g1, r1)) (h2 : readGrade r1 = some (g2, r2))
    (h3 : readGrade r2 = some (g3, c :: rest)) :
    collectLoop (f + 1) inputs
      = if pyStrip c = sentinelB || pyStrip c = sentinelZero
        then collectLoop f rest
        else some ((g1, g2, g3, pyStrip c), rest) := by
  show (match readGrade inputs with
    | none => none
    | some (g1, r1) =>
      match readGrade r1 with
      | none => none
      | some (g2, r2) =>
        match readGrade r2 with
        | none => none
        | some (g3, r3) =>
          match r3 with
          | [] => none
          | c :: rest =>
            if pyStrip c = sentinelB || pyStrip c = sentinelZero then collectLoop f rest
            else some ((g1, g2, g3, pyStrip c), rest)) = _
  rw [h1]
  show (match readGrade r1 with
    | none => none
    | some (g2, r2) =>
      match readGrade r2 with
      | none => none
      | some (g3, r3) =>
        match r3 with
        | [] => none
        | c :: rest =>
          if pyStrip c = sentinelB || pyStrip c = sentinelZero then collectLoop f rest
          else some ((g1, g2, g3, pyStrip c), rest)) = _
  rw [h2]
  show (match readGrade r2 with
    | none => none
    | some (g3, r3) =>
      match r3 with
      | [] => none
      | c :: rest =>
        if pyStrip c = sentinelB || pyStrip c = sentinelZero then collectLoop f rest
        else some ((g1, g2, g3, pyStrip c), rest)) = _
  rw [h3]

theorem collectLoop_some_shape (fuel : Nat) :
    ∀ (inputs : List Str) (g1 g2 g3 c : Str) (rest : List Str),
    collectLoop fuel inputs = some ((g1, g2, g3, c), rest) →
      validGrade g1 = true ∧ validGrade g2 = true ∧ validGrade g3 = true
      ∧ c ≠ sentinelB ∧ c ≠ sentinelZero := by
  induction fuel with
  | zero =>
    intro inputs g1 g2 g3 c rest h
    exact absurd h (by simp [collectLoop])
  | succ n ih =>
    intro inputs g1 g2 g3 c rest h
    cases hr1 : readGrade inputs with
    | none =>
      rw [collectLoop_stuck1 n inputs hr1] at h
      exact absurd h (by simp)
    | some p1 =>
      obtain ⟨a1, r1⟩ := p1
      cases hr2 : readGrade r1 with
      | none =>
        rw [collectLoop_stuck2 n inputs r1 a1 hr1 hr2] at h
        exact absurd h (by simp)
      | some p2 =>
        obtain ⟨a2, r2⟩ := p2
        cases hr3 : readGrade r2 with
        | none =>
          rw [collectLoop_stuck3 n inputs r1 r2 a1 a2 hr1 hr2 hr3] at h
          exact absurd h (by simp)
        | some p3 =>
          obtain ⟨a3, r3⟩ := p3
          cases r3 with
          | nil =>
            rw [collectLoop_stuck4 n inputs r1 r2 a1 a2 a3 hr1 hr2 hr3] at h
            exact absurd h (by simp)
          | cons cc rr =>
            rw [collectLoop_succ n inputs r1 r2 a1 a2 a3 cc rr hr1 hr2 hr3] at h
            by_cases hs : (pyStrip cc = sentinelB ∨ pyStrip cc = sentinelZero)
            · rw [if_pos (by rcases hs with hs | hs <;> simp [hs])] at h
              exact ih rr g1 g2 g3 c rest h
            · rw [if_neg (by simpa using hs)] at h
              injection h with h1
              injection h1 with hgr hrest
              injection hgr with e1 h2
              injection h2 with e2 h3
              injection h3 with e3 e4
              refine ⟨?_, ?_, ?_, ?_, ?_⟩
              · rw [← e1]; exact readGrade_valid inputs a1 r1 hr1
              · rw [← e2]; exact readGrade_valid r1 a2 r2 hr2
              · rw [← e3]; exact readGrade_valid r2 a3 (cc :: rr) hr3
              · rw [← e4]; intro hb; exact hs (Or.inl hb)
              · rw [← e4]; intro hz; exact hs (Or.inr hz)

theorem collectLoop_fuel_irrelevant : ∀ (n : Nat) (l : List Str), l.length ≤ n →
    ∀ f1 f2, l.length < f1 → l.length < f2 → collectLoop f1 l = collectLoop f2 l := by
  intro n
  induction n with
  | zero =>
    intro l hl f1 f2 h1 h2
    have hnil : l = [] := List.length_eq_zero.mp (Nat.le_antisymm hl (Nat.zero_le _))
    obtain ⟨a, rfl⟩ : ∃ a, f1 = a + 1 := ⟨f1 - 1, by omega⟩
    obtain ⟨b, rfl⟩ : ∃ b, f2 = b + 1 := ⟨f2 - 1, by omega⟩
    subst hnil
    rw [collectLoop_stuck1 a [] (by rfl), collectLoop_stuck1 b [] (by rfl)]
  | succ n ih =>
    intro l hl f1 f2 h1 h2
    obtain ⟨a, rfl⟩ : ∃ a, f1 = a + 1 := ⟨f1 - 1, by omega⟩
    obtain ⟨b, rfl⟩ : ∃ b, f2 = b + 1 := ⟨f2 - 1, by omega⟩
    cases hr1 : readGrade l with
    | none => rw [collectLoop_stuck1 a l hr1, collectLoop_stuck1 b l hr1]
    | some p1 =>
      obtain ⟨a1, r1⟩ := p1
      cases hr2 : readGrade r1 with
      | none =>
        rw [collectLoop_stuck2 a l r1 a1 hr1 hr2, collectLoop_stuck2 b l r1 a1 hr1 hr2]
      | some p2 =>
        obtain ⟨a2, r2⟩ := p2
        cases hr3 : readGrade r2 with
        | none =>
          rw [collectLoop_stuck3 a l r1 r2 a1 a2 hr1 hr2 hr3,
            collectLoop_stuck3 b l r1 r2 a1 a2 hr1 hr2 hr3]
        | some p3 =>
          obtain ⟨a3, r3⟩ := p3
          cases r3 with
          | nil =>
            rw [collectLoop_stuck4 a l r1 r2 a1 a2 a3 hr1 hr2 hr3,
              collectLoop_stuck4 b l r1 r2 a1 a2 a3 hr1 hr2 hr3]
          | cons cc rr =>
            rw [collectLoop_succ a l r1 r2 a1 a2 a3 cc rr hr1 hr2 hr3,
              collectLoop_succ b l r1 r2 a1 a2 a3 cc rr hr1 hr2 hr3]
            by_cases hs : (pyStrip cc = sentinelB ∨ pyStrip cc = sentinelZero)
            · rw [if_pos (by rcases hs with hs | hs <;> simp [hs]),
                if_pos (by rcases hs with hs | hs <;> simp [hs])]
              have l1 := readGrade_shrinks l a1 r1 hr1
              have l2 := readGrade_shrinks r1 a2 r2 hr2
              have l3 := readGrade_shrinks r2 a3 (cc :: rr) hr3
              have hrr : rr.length < l.length := by
                simp only [List.length_cons] at l3
                omega
              exact ih rr (by omega) a b (by omega) (by omega)
            · rw [if_neg (by simpa using hs), if_neg (by simpa using hs)]

theorem collect_grades_restart (inputs r1 r2 : List Str) (g1 g2 g3 c : Str)
    (rest : List Str)
    (h1 : readGrade inputs = some (g1, r1)) (h2 : readGrade r1 = some (g2, r2))
    (h3 : readGrade r2 = some (g3, c :: rest))
    (hs : pyStrip c = sentinelB ∨ pyStrip c = sentinelZero) :
    collect_grades inputs = collect_grades rest := by
  have hl1 := readGrade_shrinks inputs g1 r1 h1
  have hl2 := readGrade_shrinks r1 g2 r2 h2
  have hl3 := readGrade_shrinks r2 g3 (c :: rest) h3
  have hrest : rest.length < inputs.length := by
    simp only [List.length_cons] at hl3
    omega
  unfold collect_grades
  rw [collectLoop_succ inputs.length inputs r1 r2 g1 g2 g3 c rest h1 h2 h3]
  rw [if_pos (by rcases hs with hs | hs <;> simp [hs])]
  exact collectLoop_fuel_irrelevant inputs.length rest (by omega)
    inputs.length (rest.length + 1) hrest (Nat.lt_succ_self _)

/-- Claim C5: whenever grade capture terminates on a console-input
sequence, each of the three returned scores is a nonempty all-digit
string whose integer value is at most 2; an input that is not such a
string is consumed and re-prompted without being returned; and a
sentinel comment (`b` or `0`) after three valid scores discards them —
the capture restarts from scratch on the remaining inputs, so all three
scores must be re-entered before acceptance. -/
theorem collect_grades_valid_scores_and_sentinel_restart :
    (∀ (inputs : List Str) (g1 g2 g3 c : Str) (rest : List Str),
        collect_grades inputs = some ((g1, g2, g3, c), rest) →
        validGrade g1 = true ∧ validGrade g2 = true ∧ validGrade g3 = true)
    ∧ (∀ (i : Str) (rest : List Str), validGrade (pyStrip i) = false →
        readGrade (i :: rest) = readGrade rest)
    ∧ (∀ (inputs r1 r2 : List Str) (g1 g2 g3 c : Str) (rest : List Str),
        readGrade inputs = some (g1, r1) → readGrade r1 = some (g2, r2) →
        readGrade r2 = some (g3, c :: rest) →
        (pyStrip c = sentinelB ∨ pyStrip c = sentinelZero) →
        collect_grades inputs = collect_grades rest) := by
  refine ⟨?_, ?_, ?_⟩
  · intro inputs g1 g2 g3 c rest h
    have hh := collectLoop_some_shape (inputs.length + 1) inputs g1 g2 g3 c rest h
    exact ⟨hh.1, hh.2.1, hh.2.2.1⟩
  · intro i rest hv
    show (if validGrade (pyStrip i) = true then some (pyStrip i, rest) else readGrade rest)
      = readGrade rest
    rw [if_neg (by simp [hv])]
  · intro inputs r1 r2 g1 g2 g3 c rest h1 h2 h3 hs
    exact collect_grades_restart inputs r1 r2 g1 g2 g3 c rest h1 h2 h3 hs

theorem collect_grades_valid_scores_witness :
    (validGrade "1".toList = true ∧ validGrade "2".toList = true
      ∧ validGrade "0".toList = true)
    ∧ collect_grades ["1".toList, "2".toList, "0".toList, "b".toList,
        "2".toList, "2".toList, "2".toList, "ok".toList]
      = collect_grades ["2".toList, "2".toList, "2".toList, "ok".toList] :=
  ⟨collect_grades_valid_scores_and_sentinel_restart.1
      ["1".toList, "2".toList, "0".toList, "x".toList]
      "1".toList "2".toList "0".toList "x".toList [] (by decide),
   collect_grades_valid_scores_and_sentinel_restart.2.2
      ["1".toList, "2".toList, "0".toList, "b".toList,
        "2".toList, "2".toList, "2".toList, "ok".toList]
      ["2".toList, "0".toList, "b".toList, "2".toList, "2".toList, "2".toList, "ok".toList]
      ["0".toList, "b".toList, "2".toList, "2".toList, "2".toList, "ok".toList]
      "1".toList "2".toList "0".toList "b".toList
      ["2".toList, "2".toList, "2".toList, "ok".toList]
      (by decide) (by decide) (by decide) (Or.inl (by decide))⟩

/-- Claim C10: on every console-input sequence on which grade capture
terminates, the returned comment is never one of the sentinel tokens
`b` / `0`; consequently every row the pipeline appends to the report
carries a non-sentinel comment in its last field. -/
theorem returned_comment_not_sentinel :
    (∀ (inputs : List Str) (g1 g2 g3 c : Str) (rest : List Str),
        collect_grades inputs = some ((g1, g2, g3, c), rest) →
        c ≠ sentinelB ∧ c ≠ sentinelZero)
    ∧ (∀ (info : StudentInfo) (inputs : List Str) (rows out : List Row),
        process_submission_record info inputs (some rows) = some out →
        ∃ g : Grades, out = rows ++ [gradeRow info g]
          ∧ g.2.2.2 ≠ sentinelB ∧ g.2.2.2 ≠ sentinelZero) := by
  constructor
  · intro inputs g1 g2 g3 c rest h
    have hh := collectLoop_some_shape (inputs.length + 1) inputs g1 g2 g3 c rest h
    exact ⟨hh.2.2.2.1, hh.2.2.2.2⟩
  · intro info inputs rows out h
    unfold process_submission_record at h
    cases hc : collect_grades inputs with
    | none => rw [hc] at h; exact absurd h (by simp)
    | some p =>
      obtain ⟨⟨g1, g2, g3, c⟩, rem⟩ := p
      rw [hc, Option.map_some'] at h
      have hout : save_grades_to_csv (some rows) info (g1, g2, g3, c) = out :=
        Option.some.inj h
      have hh := collectLoop_some_shape (inputs.length + 1) inputs g1 g2 g3 c rem hc
      refine ⟨(g1, g2, g3, c), ?_, hh.2.2.2.1, hh.2.2.2.2⟩
      rw [← hout]
      simp [save_grades_to_csv]

theorem returned_comment_not_sentinel_witness :
    ∃ g : Grades,
      [csvHeaders,
       ["Ann".toList, "11112222".toList, "1".toList, "0".toList, "2".toList, "good".toList]]
        = [csvHeaders] ++ [gradeRow ⟨"Ann".toList, "11112222".toList,
            SubType.zipped, "Ann_x".toList⟩ g]
      ∧ g.2.2.2 ≠ sentinelB ∧ g.2.2.2 ≠ sentinelZero :=
  returned_comment_not_sentinel.2
    ⟨"Ann".toList, "11112222".toList, SubType.zipped, "Ann_x".toList⟩
    ["1".toList, "0".toList, "2".toList, "good".toList]
    [csvHeaders]
    [csvHeaders,
     ["Ann".toList, "11112222".toList, "1".toList, "0".toList, "2".toList, "good".toList]]
    (by decide)

theorem gradeRow_ne_header (i : StudentInfo) (g : Grades)
    (h : validGrade g.1 = true) : (gradeRow i g == csvHeaders) = false := by
  rw [beq_eq_false_iff_ne]
  intro he
  simp only [gradeRow, csvHeaders, List.cons.injEq, and_true] at he
  have h3 : g.1 = "Task 1".toList := he.2.2.1
  rw [h3] at h
  exact absurd h (by decide)

/-- Claim C6: the report header is written exactly once and only when
the report file does not yet exist: two appends starting from a missing
file produce exactly the header row followed by the two data rows (so
exactly one header line when the data rows carry valid scores), and an
append to an existing file only appends the data row, never a header. -/
theorem save_grades_header_once :
    (∀ (i1 i2 : StudentInfo) (g1 g2 : Grades),
        save_grades_to_csv (some (save_grades_to_csv none i1 g1)) i2 g2
          = [csvHeaders, gradeRow i1 g1, gradeRow i2 g2])
    ∧ (∀ (rows : List Row) (i : StudentInfo) (g : Grades),
        save_grades_to_csv (some rows) i g = rows ++ [gradeRow i g])
    ∧ (∀ (i1 i2 : StudentInfo) (g1 g2 : Grades),
        validGrade g1.1 = true → validGrade g2.1 = true →
        ((save_grades_to_csv (some (save_grades_to_csv none i1 g1)) i2 g2).filter
            (fun r => r == csvHeaders)).length = 1) := by
  refine ⟨?_, ?_, ?_⟩
  · intro i1 i2 g1 g2
    simp [save_grades_to_csv]
  · intro rows i g
    simp [save_grades_to_csv]
  · intro i1 i2 g1 g2 h1 h2
    have e : save_grades_to_csv (some (save_grades_to_csv none i1 g1)) i2 g2
        = [csvHeaders, gradeRow i1 g1, gradeRow i2 g2] := by
      simp [save_grades_to_csv]
    rw [e, List.filter_cons, List.filter_cons, List.filter_cons]
    rw [gradeRow_ne_header i1 g1 h1, gradeRow_ne_header i2 g2 h2]
    simp

theorem save_grades_header_once_witness :
    ((save_grades_to_csv
        (some (save_grades_to_csv none
          ⟨"Ann".toList, "11112222".toList, SubType.zipped, "Ann_x".toList⟩
          ("1".toList, "2".toList, "0".toList, "ok".toList)))
        ⟨"Bob".toList, "33334444".toList, SubType.folder, "Bob_y".toList⟩
        ("2".toList, "2".toList, "2".toList, "fine".toList)).filter
      (fun r => r == csvHeaders)).length = 1 :=
  save_grades_header_once.2.2
    ⟨"Ann".toList, "11112222".toList, SubType.zipped, "Ann_x".toList⟩
    ⟨"Bob".toList, "33334444".toList, SubType.folder, "Bob_y".toList⟩
    ("1".toList, "2".toList, "0".toList, "ok".toList)
    ("2".toList, "2".toList, "2".toList, "fine".toList)
    (by decide) (by decide)

theorem hasRun8_false_mem (l t : Str) (h : hasRun8 l = false) (ht : t ∈ l.tails) :
    takeDigits8 t = none := by
  unfold hasRun8 at h
  rw [Bool.eq_false_iff] at h
  by_contra hne
  exact h (List.any_eq_true.mpr ⟨t, ht, by simpa using hne⟩)

theorem hasRun8_tail (c : Char) (rest : Str) (h : hasRun8 (c :: rest) = false) :
    hasRun8 rest = false := by
  unfold hasRun8 at h ⊢
  rw [List.tails_cons, List.any_cons] at h
  exact (Bool.or_eq_false_iff.mp h).2

theorem hasRun8_false_search8 : ∀ (l : Str), hasRun8 l = false → search8 l = none := by
  intro l
  induction l with
  | nil => intro h; rfl
  | cons c rest ih =>
    intro h
    have hhead : takeDigits8 (c :: rest) = none := by
      apply hasRun8_false_mem (c :: rest) (c :: rest) h
      rw [List.mem_tails]
    show (match takeDigits8 (c :: rest) with
      | some d => some d
      | none => search8 rest) = none
    rw [hhead]
    show search8 rest = none
    exact ih (hasRun8_tail c rest h)

theorem hasRun8_false_searchU8 : ∀ (l : Str), hasRun8 l = false →
    searchUnderscore8 l = none := by
  intro l
  induction l with
  | nil => intro h; rfl
  | cons c rest ih =>
    intro h
    have htail : hasRun8 rest = false := hasRun8_tail c rest h
    show (if c = '_' then
        match takeDigits8 rest with
        | some d => some d
        | none => searchUnderscore8 rest
      else searchUnderscore8 rest) = none
    by_cases hc : c = '_'
    · rw [if_pos hc]
      have hrest : takeDigits8 rest = none := by
        apply hasRun8_false_mem rest rest htail
        rw [List.mem_tails]
      rw [hrest]
      show searchUnderscore8 rest = none
      exact ih htail
    · rw [if_neg hc]
      exact ih htail

theorem findSome?_none_of_all {α β : Type} (f : α → Option β) :
    ∀ (l : List α), (∀ x ∈ l, f x = none) → l.findSome? f = none := by
  intro l
  induction l with
  | nil => intro _; rfl
  | cons a rest ih =>
    intro h
    rw [List.findSome?_cons, h a (List.mem_cons_self _ _)]
    exact ih (fun x hx => h x (List.mem_cons_of_mem _ hx))

/-- Claim C8: for every submission folder none of whose entry names
contains a run of 8 consecutive digits, identifier extraction yields
`Not found` in the descriptor, and processing continues — grade capture
and report-append still run for the submission, producing a row whose
identifier field is `Not found`. -/
theorem missing_matriculation_not_fatal (r : RootEntry) (inputs : List Str)
    (rows : List Row) (g : Grades) (rem : List Str)
    (hnone : ∀ e ∈ r.entries, hasRun8 e.name = false)
    (hterm : collect_grades inputs = some (g, rem)) :
    (search_student_directory r).matriculation = notFoundStr
    ∧ process_submission_record (search_student_directory r) inputs (some rows)
        = some (rows ++ [gradeRow (search_student_directory r) g])
    ∧ (gradeRow (search_student_directory r) g).get? 1 = some notFoundStr := by
  have hfind : find_matriculation_number (r.entries.map FsEntry.name) = none := by
    have hu : (r.entries.map FsEntry.name).findSome? searchUnderscore8 = none := by
      apply findSome?_none_of_all
      intro x hx
      rcases List.mem_map.mp hx with ⟨e, he, rfl⟩
      exact hasRun8_false_searchU8 e.name (hnone e he)
    have hs : (r.entries.map FsEntry.name).findSome? search8 = none := by
      apply findSome?_none_of_all
      intro x hx
      rcases List.mem_map.mp hx with ⟨e, he, rfl⟩
      exact hasRun8_false_search8 e.name (hnone e he)
    show (match (r.entries.map FsEntry.name).findSome? searchUnderscore8 with
      | some d => some d
      | none => (r.entries.map FsEntry.name).findSome? search8) = none
    rw [hu]
    show (r.entries.map FsEntry.name).findSome? search8 = none
    exact hs
  have hmat : (search_student_directory r).matriculation = notFoundStr := by
    show (find_matriculation_number (r.entries.map FsEntry.name)).getD notFoundStr
      = notFoundStr
    rw [hfind]
    rfl
  refine ⟨hmat, ?_, ?_⟩
  · unfold process_submission_record
    rw [hterm, Option.map_some']
    congr 1
    simp [save_grades_to_csv]
  · show [(search_student_directory r).name, (search_student_directory r).matriculation,
      g.1, g.2.1, g.2.2.1, g.2.2.2].get? 1 = some notFoundStr
    rw [hmat]
    rfl

theorem missing_matriculation_not_fatal_witness :
    (search_student_directory
        ⟨"Jane NoNum_x".toList, true, [⟨"sol.zip".toList, false, []⟩]⟩).matriculation
      = notFoundStr
    ∧ process_submission_record
        (search_student_directory
          ⟨"Jane NoNum_x".toList, true, [⟨"sol.zip".toList, false, []⟩]⟩)
        ["1".toList, "0".toList, "2".toList, "ok".toList] (some [])
      = some ([] ++ [gradeRow
          (search_student_directory
            ⟨"Jane NoNum_x".toList, true, [⟨"sol.zip".toList, false, []⟩]⟩)
          ("1".toList, "0".toList, "2".toList, "ok".toList)])
    ∧ (gradeRow
        (search_student_directory
          ⟨"Jane NoNum_x".toList, true, [⟨"sol.zip".toList, false, []⟩]⟩)
        ("1".toList, "0".toList, "2".toList, "ok".toList)).get? 1 = some notFoundStr :=
  missing_matriculation_not_fatal
    ⟨"Jane NoNum_x".toList, true, [⟨"sol.zip".toList, false, []⟩]⟩
    ["1".toList, "0".toList, "2".toList, "ok".toList]
    [] ("1".toList, "0".toList, "2".toList, "ok".toList) []
    (by decide) (by decide)

theorem archive_rar7z_not_zip (n : Str)
    (hext : endsWithStr rarExt n = true ∨ endsWithStr sevenZExt n = true) :
    endsWithStr zipExt n = false := by
  rw [Bool.eq_false_iff]
  intro hzip
  have hz : n.reverse.take 4 = zipExt.reverse := by
    have hh := beq_iff_eq.mp hzip
    rw [show zipExt.length = 4 from rfl] at hh
    exact hh
  rcases hext with hr | h7
  · have hr4 : n.reverse.take 4 = rarExt.reverse := by
      have hh := beq_iff_eq.mp hr
      rw [show rarExt.length = 4 from rfl] at hh
      exact hh
    rw [hz] at hr4
    exact absurd hr4 (by decide)
  · have h73 : n.reverse.take 3 = sevenZExt.reverse := by
      have hh := beq_iff_eq.mp h7
      rw [show sevenZExt.length = 3 from rfl] at hh
      exact hh
    have h34 : n.reverse.take 3 = List.take 3 (n.reverse.take 4) := by
      rw [List.take_take]
      norm_num
    rw [hz, h73] at h34
    exact absurd h34 (by decide)

theorem extract_first_archive_not_zip : ∀ (entries : List FsEntry) (e : FsEntry),
    entries.find? (fun x => isArchiveName x.name) = some e →
    endsWithStr zipExt e.name = false →
    extract_and_copy_java_files entries = ([], true) := by
  intro entries
  induction entries with
  | nil =>
    intro e h _
    exact absurd h (by simp [List.find?])
  | cons a rest ih =>
    intro e h hz
    by_cases ha : isArchiveName a.name = true
    · have he : a = e := by
        rw [@List.find?_cons_of_pos FsEntry (fun x => isArchiveName x.name) a rest ha] at h
        exact Option.some.inj h
      subst he
      show (if isArchiveName a.name then
          ((if endsWithStr zipExt a.name then walkJavaFiles a.zipContents else []), true)
        else extract_and_copy_java_files rest) = ([], true)
      rw [if_pos ha, if_neg (by simp [hz])]
    · rw [@List.find?_cons_of_neg FsEntry (fun x => isArchiveName x.name) a rest
        (by simp [ha])] at h
      show (if isArchiveName a.name then
          ((if endsWithStr zipExt a.name then walkJavaFiles a.zipContents else []), true)
        else extract_and_copy_java_files rest) = ([], true)
      rw [if_neg ha]
      exact ih e h hz

/-- Claim C9: for an Archive-shaped submission whose first
archive-extension entry is a `.rar` or `.7z` file, the normalizer
extracts nothing and copies zero source files into staging, so the
downstream testing guard sees an empty staging directory and skips
compilation. -/
theorem unsupported_archive_copies_nothing (entries : List FsEntry) (e : FsEntry)
    (_hshape : determine_submission_type entries = SubType.zipped)
    (hfirst : entries.find? (fun x => isArchiveName x.name) = some e)
    (hext : endsWithStr rarExt e.name = true ∨ endsWithStr sevenZExt e.name = true) :
    (extract_and_copy_java_files entries).1 = []
    ∧ testing_invoked (extract_and_copy_java_files entries).1 = false := by
  have h := extract_first_archive_not_zip entries e hfirst (archive_rar7z_not_zip e.name hext)
  rw [h]
  exact ⟨rfl, rfl⟩

theorem unsupported_archive_copies_nothing_witness :
    (extract_and_copy_java_files
        [⟨"solution.rar".toList, false, [⟨[], "Main.java".toList⟩]⟩]).1 = []
    ∧ testing_invoked
        (extract_and_copy_java_files
          [⟨"solution.rar".toList, false, [⟨[], "Main.java".toList⟩]⟩]).1 = false :=
  unsupported_archive_copies_nothing
    [⟨"solution.rar".toList, false, [⟨[], "Main.java".toList⟩]⟩]
    ⟨"solution.rar".toList, false, [⟨[], "Main.java".toList⟩]⟩
    (by decide) (by decide) (Or.inl (by decide))

end AutoGrader
